import Mathlib

/-!
Shallow embedding of the private-blockchain ledger (`src/blockchain.js`)
together with the Block leaf component. The repository ships `blockchain.js`
and its tests; `block.js` itself is absent, so the Block constructor,
`validate()` and `getBData()` are modelled from the specification (each such
definition is marked in its doc comment).

The cryptographic digest SHA256(JSON.stringify(block)) is modelled as a
parameter `H : Block → String`; closed evaluations instantiate it with the
concrete serializer `stringify` below, which stands in for the digest.
Times are modelled as a single integer `now` (the source reads the clock
several times within one call; all reads are modelled as the same instant).
-/

/-- Hexadecimal digit character (lowercase) for a value below 16. -/
def hexDigit (n : Nat) : Char :=
  if n < 10 then Char.ofNat (48 + n) else Char.ofNat (87 + n)

/-- Numeric value of a lowercase hexadecimal digit character. -/
def hexVal (c : Char) : Nat :=
  if 97 ≤ c.toNat then c.toNat - 87 else c.toNat - 48

/-- Hex-of-ASCII encoding of a text payload: each character below 256 becomes
two hex digits (the reversible payload encoding of the data model). -/
def ascii2hex (s : String) : String :=
  ⟨s.data.flatMap fun c => [hexDigit (c.toNat / 16), hexDigit (c.toNat % 16)]⟩

/-- Decode a list of hex digit characters two at a time. -/
def hexPairsToChars : List Char → List Char
  | a :: b :: rest => Char.ofNat (16 * hexVal a + hexVal b) :: hexPairsToChars rest
  | _ => []

/-- Inverse of `ascii2hex` (the `hex2ascii` decoding used for payload reads). -/
def hex2ascii (s : String) : String :=
  ⟨hexPairsToChars s.data⟩

/-- A payload text whose characters all fit in one byte, so that the
hex-of-ASCII encoding round-trips. -/
def ByteText (s : String) : Prop := ∀ c ∈ s.data, c.toNat < 256

instance (s : String) : Decidable (ByteText s) := by
  unfold ByteText; infer_instance

/-- The structured record encoded into a block body:
JSON.stringify of a star/owner object. -/
structure BData where
  star : Option String
  owner : Option String
  deriving DecidableEq

/-- JSON rendering of a possibly-null string field. -/
def jsonField : Option String → String
  | some s => "\"" ++ s ++ "\""
  | none => "null"

/-- JSON.stringify of the payload record, field order star then owner. -/
def stringifyBData (d : BData) : String :=
  "\x7b\"star\":" ++ jsonField d.star ++ ",\"owner\":" ++ jsonField d.owner ++ "\x7d"

/-- One ledger entry as stored by the source: height, timestamp string, the
hex-encoded body, owner address, back link and self hash (null as `none`). -/
structure Block where
  height : Int
  time : String
  body : String
  owner : Option String
  previousBlockHash : Option String
  hash : Option String
  deriving DecidableEq, Inhabited

/-- Modelled from the spec: the repository's `block.js` is not under `src/`.
The Block constructor stores the hex-encoded stringified payload, height 0,
a zero timestamp, and null owner, link and hash. -/
def Block.new (d : BData) : Block :=
  { height := 0, time := "0", body := ascii2hex (stringifyBData d),
    owner := none, previousBlockHash := none, hash := none }

/-- Modelled from the spec: `block.js` is not under `src/`. `validate()`
recomputes the digest of the block with the hash field cleared and compares
it with the stored self hash. -/
def Block.validate (H : Block → String) (b : Block) : Bool :=
  decide (b.hash = some (H { b with hash := none }))

/-- Modelled from the spec: `block.js` is not under `src/`. `getBData()`
fails on the genesis block (height 0) with the message asserted by the
repository's test, and otherwise resolves with the decoded payload text. -/
def Block.getBData (b : Block) : Except String String :=
  if b.height = 0 then Except.error "Can not return data for Genesis Block"
  else Except.ok (hex2ascii b.body)

/-- Ledger state: the chain array and the stored height counter. -/
structure Blockchain where
  chain : List Block
  height : Int
  deriving DecidableEq

/-- `validateChain()` of `src/blockchain.js`: scan indices 0 .. length-2,
record index `i` when `chain[i].validate()` is false, and record `i` again
when `chain[i].hash` differs from `chain[i+1].previousBlockHash`. -/
def validateChain (H : Block → String) (c : List Block) : List Nat :=
  (List.range (c.length - 1)).foldl
    (fun errorLog i =>
      let errorLog := if Block.validate H (c.getD i default) then errorLog else errorLog ++ [i]
      if (c.getD i default).hash = (c.getD (i + 1) default).previousBlockHash then errorLog
      else errorLog ++ [i])
    []

/-- The stamping and sealing phase of `_addBlock`: set the timestamp, link
and height (when the chain is not empty), then compute the self hash over
the block as it stands. -/
def stampSeal (H : Block → String) (now : Int) (st : Blockchain) (b : Block) : Block :=
  let b1 := { b with time := toString now }
  let b2 :=
    if 0 < st.chain.length then
      { b1 with previousBlockHash := (st.chain.getLastD default).hash,
                height := (st.chain.length : Int) }
    else b1
  { b2 with hash := some (H b2) }

/-- `_addBlock` of `src/blockchain.js`: stamp and seal the candidate, push it
onto the chain, then run the full-chain validation; on any reported error the
promise is rejected while the pushed block stays in the chain. The stored
`height` counter is not touched anywhere in this method. -/
def _addBlock (H : Block → String) (now : Int) (st : Blockchain) (b : Block) :
    Blockchain × Except String Block :=
  let sealed := stampSeal H now st b
  let chain2 := st.chain ++ [sealed]
  let errorLog := validateChain H chain2
  if 0 < errorLog.length then
    ({ st with chain := chain2 }, Except.error "Blockchain validation failed ")
  else
    ({ st with chain := chain2 }, Except.ok sealed)

/-- `initializeChain()`: when the stored height is -1, append the genesis
block (payload star "Genesis Block", owner null, height forced to 0). -/
def initializeChain (H : Block → String) (now : Int) (st : Blockchain) : Blockchain :=
  if st.height = -1 then
    (_addBlock H now st { Block.new ⟨some "Genesis Block", none⟩ with height := 0 }).1
  else st

/-- `getChainHeight()`: resolves with the stored height counter. -/
def getChainHeight (st : Blockchain) : Int := st.height

/-- Accumulate the value of a leading run of decimal digits. -/
def takeDigitsVal : List Char → Nat → Nat
  | [], acc => acc
  | c :: rest, acc => if c.isDigit then takeDigitsVal rest (acc * 10 + (c.toNat - 48)) else acc

/-- Value of the leading digit run, or `none` when the first character is not
a digit. -/
def leadingDigits : List Char → Option Nat
  | [] => none
  | c :: rest => if c.isDigit then some (takeDigitsVal (c :: rest) 0) else none

/-- JavaScript `parseInt` on a string: optional sign followed by a digit
prefix; `none` models NaN. -/
def parseIntJS (s : String) : Option Int :=
  match s.data with
  | '-' :: rest => (leadingDigits rest).map fun n => -(n : Int)
  | '+' :: rest => (leadingDigits rest).map fun n => (n : Int)
  | l => (leadingDigits l).map fun n => (n : Int)

/-- JavaScript `String.prototype.split` with a one-character separator. -/
def splitChar (sep : Char) : List Char → List (List Char)
  | [] => [[]]
  | c :: rest =>
    let r := splitChar sep rest
    if c = sep then [] :: r
    else (c :: r.headD []) :: r.tail

/-- `message.split(sep)` on a Lean string. -/
def jsSplit (sep : Char) (s : String) : List String :=
  (splitChar sep s.data).map List.asString

/-- The elapsed-time test of `submitStar`: the embedded timestamp is the
second colon-delimited field of the message, read with `parseInt` (NaN as
`none`; a NaN comparison is false, so an unparsable field never counts as
expired). Real division of integers by 60 exceeds 5 exactly when the
difference exceeds 300. -/
def challengeExpired (now : Int) (message : String) : Bool :=
  match ((jsSplit ':' message)[1]?).bind parseIntJS with
  | some t => decide (300 < now - t)
  | none => false

/-- `submitStar` of `src/blockchain.js`. The embedded timestamp is the second
colon-delimited field of the message, read with `parseInt` (NaN as `none`;
a NaN comparison is false, so an unparsable field does not trigger the
elapsed-time rejection). Real division of integers by 60 exceeds 5 exactly
when the difference exceeds 300. Signature verification may throw
(`Except.error`), which the surrounding try/catch wraps into the generic
message; the final `resolve(this._addBlock(block))` adopts the inner promise,
so append-step rejections pass through unwrapped. -/
def submitStar (H : Block → String) (v : String → String → String → Except String Bool)
    (now : Int) (st : Blockchain) (address message signature star : String) :
    Blockchain × Except String Block :=
  if challengeExpired now message then
    (st, Except.error "More than 5 mins elapsed since the signing of the message")
  else
    match v message address signature with
    | Except.error _ => (st, Except.error "Error while adding the block to chain")
    | Except.ok false => (st, Except.error "Not able to verify the message")
    | Except.ok true =>
      _addBlock H now st { Block.new ⟨some star, some address⟩ with owner := some address }

/-- `getStarsByWalletAddress`: filter the chain by owner, decode each body,
resolve with the list when non-empty and with null (`none`) otherwise. -/
def getStarsByWalletAddress (st : Blockchain) (address : String) : Option (List String) :=
  let ownedBlocks := (st.chain.filter fun p => p.owner = some address).map fun b => hex2ascii b.body
  if 0 < ownedBlocks.length then some ownedBlocks else none

/-- Concrete stand-in for the SHA256-of-JSON digest, used to instantiate the
digest parameter `H` in closed evaluations. -/
def stringify (b : Block) : String :=
  String.intercalate "|"
    [toString b.height, b.time, b.body, jsonField b.owner,
     jsonField b.previousBlockHash, jsonField b.hash]

/-- The hex-encoded genesis payload. -/
def genesisBody : String := ascii2hex (stringifyBData ⟨some "Genesis Block", none⟩)

/-- A signature verifier that accepts everything. -/
def verifyOk : String → String → String → Except String Bool := fun _ _ _ => Except.ok true

/-- A signature verifier that throws. -/
def verifyThrows : String → String → String → Except String Bool :=
  fun _ _ _ => Except.error "Invalid signature length"

/-- The empty ledger state, before genesis creation. -/
def emptyLedger : Blockchain := { chain := [], height := -1 }

/-- A freshly initialized ledger (genesis created at instant 100). -/
def demoSt1 : Blockchain := initializeChain stringify 100 emptyLedger

/-- The demo ledger after one more append at instant 101. -/
def demoSt2 : Blockchain :=
  (_addBlock stringify 101 demoSt1 (Block.new ⟨some "StarA", some "Addr1"⟩)).1

/-- The two error contributions the validation scan makes at index `i`. -/
def chainScanErrors (H : Block → String) (c : List Block) (i : Nat) : List Nat :=
  (if Block.validate H (c.getD i default) then [] else [i]) ++
    (if (c.getD i default).hash = (c.getD (i + 1) default).previousBlockHash then [] else [i])

/-- A chain is sealed when every block's stored hash matches the recomputed
digest (its own `validate()` holds). -/
def ChainSealed (H : Block → String) (c : List Block) : Prop :=
  ∀ i, i < c.length → Block.validate H (c.getD i default) = true

instance (H : Block → String) (c : List Block) : Decidable (ChainSealed H c) := by
  unfold ChainSealed; infer_instance

/-- A chain is linked when every block's back link equals the stored hash of
its predecessor. -/
def ChainLinked (c : List Block) : Prop :=
  ∀ i, i < c.length - 1 → (c.getD (i + 1) default).previousBlockHash = (c.getD i default).hash

instance (c : List Block) : Decidable (ChainLinked c) := by
  unfold ChainLinked; infer_instance

lemma foldl_collect (g : Nat → List Nat) :
    ∀ (l : List Nat) (a : List Nat), l.foldl (fun acc i => acc ++ g i) a = a ++ l.flatMap g
  | [], a => by simp
  | x :: xs, a => by
    simp only [List.foldl_cons, List.flatMap_cons, foldl_collect g xs, List.append_assoc]

lemma validateChain_eq_flatMap (H : Block → String) (c : List Block) :
    validateChain H c = (List.range (c.length - 1)).flatMap (chainScanErrors H c) := by
  have hstep :
      (fun (errorLog : List Nat) (i : Nat) =>
        let errorLog :=
          if Block.validate H (c.getD i default) then errorLog else errorLog ++ [i]
        if (c.getD i default).hash = (c.getD (i + 1) default).previousBlockHash then errorLog
        else errorLog ++ [i]) =
      fun acc i => acc ++ chainScanErrors H c i := by
    funext acc i
    simp only [chainScanErrors]
    split <;> split <;> simp
  rw [validateChain, hstep, foldl_collect]
  simp

lemma mem_chainScanErrors {H : Block → String} {c : List Block} {i j : Nat}
    (h : j ∈ chainScanErrors H c i) : j = i := by
  unfold chainScanErrors at h
  rcases List.mem_append.1 h with h' | h' <;> revert h' <;> split <;> simp

lemma chainScanErrors_sorted (H : Block → String) (c : List Block) (i : Nat) :
    (chainScanErrors H c i).Pairwise (· ≤ ·) := by
  unfold chainScanErrors
  split <;> split <;> simp

lemma validateChain_sorted (H : Block → String) (c : List Block) :
    (validateChain H c).Sorted (· ≤ ·) := by
  rw [validateChain_eq_flatMap]
  generalize c.length - 1 = n
  induction n with
  | zero => simp [List.Sorted]
  | succ n ih =>
    rw [List.range_succ, List.flatMap_append]
    refine List.pairwise_append.2 ⟨ih, ?_, ?_⟩
    · simpa using chainScanErrors_sorted H c n
    · intro a ha b hb
      rcases List.mem_flatMap.1 ha with ⟨i, hi, hai⟩
      have : a = i := mem_chainScanErrors hai
      have hbn : b ∈ chainScanErrors H c n := by simpa using hb
      have hb' : b = n := mem_chainScanErrors hbn
      subst this; subst hb'
      exact Nat.le_of_lt (List.mem_range.1 hi)

lemma validateChain_of_sealed_linked {H : Block → String} {c : List Block}
    (hs : ChainSealed H c) (hl : ChainLinked c) : validateChain H c = [] := by
  rw [validateChain_eq_flatMap, List.flatMap_eq_nil_iff]
  intro i hi
  have hi' : i < c.length - 1 := List.mem_range.1 hi
  have h1 : i < c.length := Nat.lt_of_lt_of_le hi' (Nat.sub_le _ _)
  unfold chainScanErrors
  rw [hs i h1, hl i hi', if_pos rfl, if_pos rfl]
  rfl

lemma hexVal_hexDigit : ∀ m, m < 16 → hexVal (hexDigit m) = m := by decide

lemma hexPairsToChars_encode :
    ∀ l : List Char, (∀ c ∈ l, c.toNat < 256) →
      hexPairsToChars (l.flatMap fun c => [hexDigit (c.toNat / 16), hexDigit (c.toNat % 16)]) = l
  | [], _ => rfl
  | c :: rest, h => by
    have hc : c.toNat < 256 := h c (List.mem_cons_self c rest)
    have hdiv : c.toNat / 16 < 16 := Nat.div_lt_of_lt_mul hc
    have hmod : c.toNat % 16 < 16 := Nat.mod_lt _ (by norm_num)
    have ih := hexPairsToChars_encode rest fun x hx => h x (List.mem_cons_of_mem c hx)
    rw [List.flatMap_cons, List.cons_append, List.cons_append, List.nil_append,
      hexPairsToChars, hexVal_hexDigit _ hdiv, hexVal_hexDigit _ hmod, Nat.div_add_mod,
      Char.ofNat_toNat, ih]

lemma hex2ascii_ascii2hex {s : String} (h : ByteText s) : hex2ascii (ascii2hex s) = s := by
  cases s with
  | mk data => exact congrArg String.mk (hexPairsToChars_encode data h)

lemma stampSeal_owner (H : Block → String) (now : Int) (st : Blockchain) (b : Block) :
    (stampSeal H now st b).owner = b.owner := by
  simp only [stampSeal]
  split <;> rfl

lemma stampSeal_body (H : Block → String) (now : Int) (st : Blockchain) (b : Block) :
    (stampSeal H now st b).body = b.body := by
  simp only [stampSeal]
  split <;> rfl

lemma _addBlock_ok_inv {H : Block → String} {now : Int} {st st2 : Blockchain}
    {b b2 : Block} (h : _addBlock H now st b = (st2, Except.ok b2)) :
    st2 = { st with chain := st.chain ++ [stampSeal H now st b] } ∧
      b2 = stampSeal H now st b := by
  simp only [_addBlock] at h
  split at h
  · exact absurd (congrArg Prod.snd h) (by simp)
  · exact ⟨(congrArg Prod.fst h).symm, by simpa using (congrArg Prod.snd h).symm⟩

lemma submitStar_ok_inv {H : Block → String} {v : String → String → String → Except String Bool}
    {now : Int} {st st2 : Blockchain} {a m s star : String} {b2 : Block}
    (h : submitStar H v now st a m s star = (st2, Except.ok b2)) :
    st2 = { st with chain := st.chain ++
        [stampSeal H now st { Block.new ⟨some star, some a⟩ with owner := some a }] } ∧
      b2 = stampSeal H now st { Block.new ⟨some star, some a⟩ with owner := some a } := by
  simp only [submitStar] at h
  split at h
  · exact absurd (congrArg Prod.snd h) (by simp)
  · split at h
    · exact absurd (congrArg Prod.snd h) (by simp)
    · exact absurd (congrArg Prod.snd h) (by simp)
    · exact _addBlock_ok_inv h

/-- A signature verifier that reports failure. -/
def verifyFalse : String → String → String → Except String Bool := fun _ _ _ => Except.ok false

/-- A block whose stored hash does not match any recomputation. -/
def junkBlock : Block := { Block.new ⟨some "X", none⟩ with hash := some "junk" }

/-- A ledger whose single block is internally inconsistent, so that any
post-append validation reports an error. -/
def junkLedger : Blockchain := { chain := [junkBlock], height := -1 }

/-- The tail block of the demo chain with its body flipped (hash kept). -/
def tamperedTail : Block := { demoSt2.chain.getD 1 default with body := "00" }

/-- The demo chain with the tail block tampered. -/
def tamperedChain : List Block := demoSt2.chain.set 1 tamperedTail

/-- The genesis block of the demo chain with its body flipped (hash kept). -/
def tamperedGenesis : Block := { demoSt2.chain.getD 0 default with body := "00" }

/-- Result of a successful concrete star submission against the demo ledger. -/
def demoSubmit : Blockchain × Except String Block :=
  submitStar stringify verifyOk 200 demoSt1 "Addr1" "Addr1:100:starRegistry" "sig" "StarA"

/-- The sealed block that the concrete submission appends. -/
def demoStarBlock : Block :=
  stampSeal stringify 200 demoSt1 { Block.new ⟨some "StarA", some "Addr1"⟩ with owner := some "Addr1" }

/-- C1: the claim says every successful append increments the stored height so
that it equals `blocks.length - 1`; the code never updates `this.height` in
`_addBlock`, so after the genesis append at initialization the stored height is
still -1 while one block is in the chain. -/
theorem height_counter_never_updated :
    getChainHeight (initializeChain stringify 0 emptyLedger) = -1 ∧
    (initializeChain stringify 0 emptyLedger).chain.length = 1 ∧
    getChainHeight (initializeChain stringify 0 emptyLedger) ≠
      ((initializeChain stringify 0 emptyLedger).chain.length : Int) - 1 := by
  decide

/-- C2: the claim says `initialize()` is idempotent; because the stored height
stays -1 after the first call (C1), a second call appends a second block with
the genesis payload, so the chain ends with two genesis-payload blocks and the
stored height is -1, not 0, after the first call. -/
theorem initializeChain_not_idempotent :
    (initializeChain stringify 0 emptyLedger).height = -1 ∧
    (initializeChain stringify 5 (initializeChain stringify 0 emptyLedger)).chain.length = 2 ∧
    (initializeChain stringify 5 (initializeChain stringify 0 emptyLedger)).chain.map Block.body
      = [genesisBody, genesisBody] := by
  decide

/-- C3: `validate_chain` scans indices 0 through length-2 inclusive, records
index i when blocks[i].validate() is false and records i again when
blocks[i].hash differs from blocks[i+1].previousBlockHash, and resolves with
the ordered list of these indices (a total function: errors are data). -/
theorem validateChain_scan_spec (H : Block → String) (c : List Block) :
    validateChain H c =
      (List.range (c.length - 1)).flatMap (fun i =>
        (if Block.validate H (c.getD i default) then [] else [i]) ++
          (if (c.getD i default).hash = (c.getD (i + 1) default).previousBlockHash then []
           else [i])) ∧
    (validateChain H c).Sorted (· ≤ ·) :=
  ⟨by rw [validateChain_eq_flatMap]; rfl, validateChain_sorted H c⟩

/-- C8: when the post-append full-chain validation reports any error,
`_addBlock` rejects with the integrity error while the just-appended block
remains physically in the chain (no rollback). -/
theorem addBlock_rejects_leaves_block (H : Block → String) (now : Int) (st : Blockchain)
    (b : Block) (h : validateChain H (st.chain ++ [stampSeal H now st b]) ≠ []) :
    _addBlock H now st b =
      ({ st with chain := st.chain ++ [stampSeal H now st b] },
        Except.error "Blockchain validation failed ") := by
  simp only [_addBlock]
  rw [if_pos (List.length_pos.2 h)]

/-- Witness for C8 at a concrete inconsistent ledger. -/
theorem addBlock_rejects_leaves_block_witness :
    _addBlock stringify 7 junkLedger (Block.new ⟨some "Y", none⟩) =
      ({ junkLedger with
          chain := junkLedger.chain ++ [stampSeal stringify 7 junkLedger (Block.new ⟨some "Y", none⟩)] },
        Except.error "Blockchain validation failed ") :=
  addBlock_rejects_leaves_block stringify 7 junkLedger (Block.new ⟨some "Y", none⟩) (by decide)

/-- C5: with a parseable embedded timestamp, `submitStar` rejects without
appending when more than 5 minutes elapsed (even with a valid signature), and
rejects without appending when the signature does not verify (within the
window); the state is returned unchanged in both cases. -/
theorem submitStar_rejects_expired_and_badsig
    (H : Block → String) (v : String → String → String → Except String Bool)
    (now : Int) (st : Blockchain) (a m s star : String) (t : Int)
    (hparse : ((jsSplit ':' m)[1]?).bind parseIntJS = some t) :
    (300 < now - t → v m a s = Except.ok true →
      submitStar H v now st a m s star =
        (st, Except.error "More than 5 mins elapsed since the signing of the message")) ∧
    (¬ 300 < now - t → v m a s = Except.ok false →
      submitStar H v now st a m s star =
        (st, Except.error "Not able to verify the message")) := by
  constructor
  · intro hexp _
    have hc : challengeExpired now m = true := by
      simp [challengeExpired, hparse, hexp]
    simp [submitStar, hc]
  · intro hexp hv
    have hc : challengeExpired now m = false := by
      simp [challengeExpired, hparse, hexp]
    simp [submitStar, hc, hv]

/-- Witness for C5 at concrete expired and bad-signature submissions. -/
theorem submitStar_rejects_witness :
    submitStar stringify verifyOk 401 demoSt1 "Addr1" "Addr1:100:starRegistry" "sig" "StarA" =
      (demoSt1, Except.error "More than 5 mins elapsed since the signing of the message") ∧
    submitStar stringify verifyFalse 200 demoSt1 "Addr1" "Addr1:100:starRegistry" "sig" "StarA" =
      (demoSt1, Except.error "Not able to verify the message") :=
  ⟨(submitStar_rejects_expired_and_badsig stringify verifyOk 401 demoSt1
      "Addr1" "Addr1:100:starRegistry" "sig" "StarA" 100 (by decide)).1 (by decide) rfl,
   (submitStar_rejects_expired_and_badsig stringify verifyFalse 200 demoSt1
      "Addr1" "Addr1:100:starRegistry" "sig" "StarA" 100 (by decide)).2 (by decide) rfl⟩

/-- C6 counterexample: a message whose second colon-delimited field is
unparsable does not make `submitStar` fail; with a verifying signature the
submission succeeds and appends a block, so no ProtocolError is raised. -/
theorem unparsable_timestamp_appends :
    ((jsSplit ':' "addr:xyz:starRegistry")[1]?).bind parseIntJS = none ∧
    (submitStar stringify verifyOk 1000 emptyLedger
        "addr" "addr:xyz:starRegistry" "sig" "S").2.isOk = true ∧
    (submitStar stringify verifyOk 1000 emptyLedger
        "addr" "addr:xyz:starRegistry" "sig" "S").1.chain.length = 1 := by
  decide

/-- C6 amended: when the embedded timestamp is unparsable, `parseInt` yields
NaN, the elapsed-time comparison is false, and the submission proceeds
directly to signature verification — no error is raised for the unparsable
field itself. -/
theorem unparsable_timestamp_skips_time_check
    (H : Block → String) (v : String → String → String → Except String Bool)
    (now : Int) (st : Blockchain) (a m s star : String)
    (hparse : ((jsSplit ':' m)[1]?).bind parseIntJS = none) :
    submitStar H v now st a m s star =
      match v m a s with
      | Except.error _ => (st, Except.error "Error while adding the block to chain")
      | Except.ok false => (st, Except.error "Not able to verify the message")
      | Except.ok true =>
        _addBlock H now st { Block.new ⟨some star, some a⟩ with owner := some a } := by
  have hc : challengeExpired now m = false := by
    simp [challengeExpired, hparse]
  simp [submitStar, hc]

/-- Witness for the amended C6 at a concrete unparsable message. -/
theorem unparsable_timestamp_skips_time_check_witness :
    submitStar stringify verifyOk 1000 emptyLedger "addr" "addr:xyz:starRegistry" "sig" "S" =
      _addBlock stringify 1000 emptyLedger
        { Block.new ⟨some "S", some "addr"⟩ with owner := some "addr" } :=
  unparsable_timestamp_skips_time_check stringify verifyOk 1000 emptyLedger
    "addr" "addr:xyz:starRegistry" "sig" "S" (by decide)

/-- C7 counterexample: a failure arising in the final append step is not
wrapped into the generic claim-submission message; it surfaces with the
append's own message. -/
theorem append_failure_not_wrapped :
    (submitStar stringify verifyOk 200 junkLedger
        "Addr1" "Addr1:100:starRegistry" "sig" "StarA").2 =
      Except.error "Blockchain validation failed " ∧
    "Blockchain validation failed " ≠ "Error while adding the block to chain" :=
  ⟨rfl, by decide⟩

/-- C7 amended: of the failures in steps 1-4, only exceptions thrown during
signature verification are wrapped into the generic message; when
verification succeeds the result is exactly the append's result, so a
rejection of the append step passes through with its own error. -/
theorem claim_submission_error_wrapping
    (H : Block → String) (v : String → String → String → Except String Bool)
    (now : Int) (st : Blockchain) (a m s star : String)
    (hc : challengeExpired now m = false) :
    (∀ e, v m a s = Except.error e →
      submitStar H v now st a m s star =
        (st, Except.error "Error while adding the block to chain")) ∧
    (v m a s = Except.ok true →
      submitStar H v now st a m s star =
        _addBlock H now st { Block.new ⟨some star, some a⟩ with owner := some a }) := by
  constructor
  · intro e hv
    simp [submitStar, hc, hv]
  · intro hv
    simp [submitStar, hc, hv]

/-- Witness for the amended C7: a throwing verifier is wrapped; a successful
verifier hands the call off to the raw append. -/
theorem claim_submission_error_wrapping_witness :
    submitStar stringify verifyThrows 200 demoSt1 "Addr1" "Addr1:100:starRegistry" "sig" "StarA" =
      (demoSt1, Except.error "Error while adding the block to chain") ∧
    submitStar stringify verifyOk 200 demoSt1 "Addr1" "Addr1:100:starRegistry" "sig" "StarA" =
      _addBlock stringify 200 demoSt1
        { Block.new ⟨some "StarA", some "Addr1"⟩ with owner := some "Addr1" } :=
  ⟨(claim_submission_error_wrapping stringify verifyThrows 200 demoSt1
      "Addr1" "Addr1:100:starRegistry" "sig" "StarA" (by decide)).1 "Invalid signature length" rfl,
   (claim_submission_error_wrapping stringify verifyOk 200 demoSt1
      "Addr1" "Addr1:100:starRegistry" "sig" "StarA" (by decide)).2 rfl⟩

set_option maxRecDepth 100000 in
/-- C4 counterexample: the validation scan stops at length-2, so flipping a
stored field (here the body) of the LAST block of an untampered two-block
chain leaves the result empty — that block's index never appears. -/
theorem tail_tamper_not_reported :
    validateChain stringify demoSt2.chain = [] ∧
    tamperedTail.body ≠ (demoSt2.chain.getD 1 default).body ∧
    tamperedTail.hash = (demoSt2.chain.getD 1 default).hash ∧
    tamperedChain.length = 2 ∧
    validateChain stringify tamperedChain = [] := by
  decide

/-- C4 amended: on a sealed, linked chain `validate_chain` returns the empty
list; flipping a single stored field other than the self hash of a block at
an index scanned by the loop (index ≤ length-2) — any flip that changes the
recomputed digest — makes that index appear in the result. Flips confined to
the tail block are outside the scan and are not reported under that index. -/
theorem validateChain_detects_scanned_tamper
    (H : Block → String) (c : List Block) (j : Nat) (b : Block)
    (hs : ChainSealed H c) (hl : ChainLinked c) (hj : j + 1 < c.length)
    (hhash : b.hash = (c.getD j default).hash)
    (hne : H { b with hash := none } ≠ H { c.getD j default with hash := none }) :
    validateChain H c = [] ∧ j ∈ validateChain H (c.set j b) := by
  refine ⟨validateChain_of_sealed_linked hs hl, ?_⟩
  rw [validateChain_eq_flatMap]
  refine List.mem_flatMap.2 ⟨j, List.mem_range.2 ?_, ?_⟩
  · rw [List.length_set]
    omega
  · have hget : (c.set j b).getD j default = b := by
      rw [List.getD_eq_getElem?_getD, List.getElem?_set_self (by omega)]
      rfl
    have hstored : (c.getD j default).hash = some (H { c.getD j default with hash := none }) := by
      have hv := hs j (by omega)
      unfold Block.validate at hv
      exact of_decide_eq_true hv
    have hbad : Block.validate H b = false := by
      apply decide_eq_false
      rw [hhash, hstored]
      intro hcontra
      exact hne (Option.some.inj hcontra).symm
    unfold chainScanErrors
    rw [hget, hbad]
    simp

set_option maxRecDepth 100000 in
/-- Witness for the amended C4: flipping the genesis body in the concrete
two-block chain makes index 0 appear in the validation result. -/
theorem validateChain_detects_scanned_tamper_witness :
    validateChain stringify demoSt2.chain = [] ∧
    0 ∈ validateChain stringify (demoSt2.chain.set 0 tamperedGenesis) :=
  validateChain_detects_scanned_tamper stringify demoSt2.chain 0 tamperedGenesis
    (by decide) (by decide) (by decide) (by decide) (by decide)

/-- C9: `getBData` always fails with the genesis-access error on a height-0
block, and on any other block whose body is the hex encoding of a byte text
it resolves with that original text. -/
theorem getBData_genesis_and_roundtrip :
    (∀ b : Block, b.height = 0 →
      Block.getBData b = Except.error "Can not return data for Genesis Block") ∧
    (∀ (b : Block) (t : String), b.height ≠ 0 → b.body = ascii2hex t → ByteText t →
      Block.getBData b = Except.ok t) := by
  constructor
  · intro b hb
    simp [Block.getBData, hb]
  · intro b t hb hbody ht
    simp [Block.getBData, hb, hbody, hex2ascii_ascii2hex ht]

/-- Witness for C9 at the genesis block and a concrete non-genesis block. -/
theorem getBData_genesis_and_roundtrip_witness :
    Block.getBData { Block.new ⟨some "Genesis Block", none⟩ with height := 0 } =
      Except.error "Can not return data for Genesis Block" ∧
    Block.getBData { Block.new ⟨some "StarA", some "Addr1"⟩ with height := 1 } =
      Except.ok (stringifyBData ⟨some "StarA", some "Addr1"⟩) :=
  ⟨getBData_genesis_and_roundtrip.1 _ rfl,
   getBData_genesis_and_roundtrip.2 { Block.new ⟨some "StarA", some "Addr1"⟩ with height := 1 }
     (stringifyBData ⟨some "StarA", some "Addr1"⟩) (by decide) rfl (by decide)⟩

/-- C10: every star claim that succeeds through `submitStar` (star payload a
byte text) is afterwards visible through `get_claims_by_address`: the result
is non-null and contains the decoded record. -/
theorem submitStar_claims_roundtrip
    {H : Block → String} {v : String → String → String → Except String Bool}
    {now : Int} {st st2 : Blockchain} {a m s star : String} {b2 : Block}
    (hok : submitStar H v now st a m s star = (st2, Except.ok b2))
    (ht : ByteText (stringifyBData ⟨some star, some a⟩)) :
    ∃ l, getStarsByWalletAddress st2 a = some l ∧
      stringifyBData ⟨some star, some a⟩ ∈ l := by
  obtain ⟨hst2, -⟩ := submitStar_ok_inv hok
  subst hst2
  set blk := stampSeal H now st { Block.new ⟨some star, some a⟩ with owner := some a } with hblk
  have howner : blk.owner = some a := by
    rw [hblk, stampSeal_owner]
  have hbody : blk.body = ascii2hex (stringifyBData ⟨some star, some a⟩) := by
    rw [hblk, stampSeal_body]
    rfl
  have hmem : blk ∈ (st.chain ++ [blk]).filter fun p => decide (p.owner = some a) := by
    refine List.mem_filter.2 ⟨List.mem_append_right _ (List.mem_singleton.2 rfl), ?_⟩
    simp [howner]
  have hmem2 : hex2ascii blk.body ∈
      ((st.chain ++ [blk]).filter fun p => decide (p.owner = some a)).map
        fun b => hex2ascii b.body :=
    List.mem_map_of_mem _ hmem
  rw [hbody, hex2ascii_ascii2hex ht] at hmem2
  refine ⟨_, ?_, hmem2⟩
  simp only [getStarsByWalletAddress]
  rw [if_pos]
  exact List.length_pos.2 fun hnil => by
    rw [hnil] at hmem2
    exact absurd hmem2 (List.not_mem_nil _)

set_option maxRecDepth 100000 in
/-- Witness for C10: the concrete successful submission is visible through
the address query. -/
theorem submitStar_claims_roundtrip_witness :
    ∃ l, getStarsByWalletAddress demoSubmit.1 "Addr1" = some l ∧
      stringifyBData ⟨some "StarA", some "Addr1"⟩ ∈ l :=
  @submitStar_claims_roundtrip stringify verifyOk 200 demoSt1 demoSubmit.1
    "Addr1" "Addr1:100:starRegistry" "sig" "StarA" demoStarBlock rfl (by decide)
